import Mathlib

/-!
Shallow embedding of the medical-waste tracking core:
`status_flow.py` (flow engine and status ledger), the incident-detection
portions of `views.py` (`dashboard`, `bulk_update_status`), and the geo
utilities of `utils.py`.  Database rows become Lean lists, timestamps
become integers (`datetime.utcnow()` is passed in as an explicit `now`
parameter), and Python exceptions become an `Except` result paired with
the session state (the ledger) left behind by the call.
-/

/-- A row of the `status_event` table: `(ref_type, ref_id, status, by_user, at)`.
`at` is the timestamp in abstract integer ticks. -/
structure StatusEvent where
  ref_type : String
  ref_id : String
  status : String
  by_user : Nat
  at_time : Int
deriving Repr, DecidableEq

/-- The status ledger: all `StatusEvent` rows in insertion order
(`db.session.add` appends; rows are never updated or deleted). -/
abbrev Ledger := List StatusEvent

/-- `WASTE_FLOW` from `status_flow.py`. -/
def WASTE_FLOW : List String :=
  ["Collected", "On Truck", "In Transit", "Arrived Disposal Site", "In Disposal", "Completed"]

/-- `TRANSPORT_FLOW` from `status_flow.py`. -/
def TRANSPORT_FLOW : List String :=
  ["In Transit", "Arrived Disposal Site", "Completed"]

/-- Python exceptions that the flow engine can raise: `FlowError`
(declared in `status_flow.py`) and `ValueError` (raised by
`list.index` when the element is absent). -/
inductive PyError where
  | flow (msg : String)
  | value (msg : String)
deriving Repr, DecidableEq

instance {ε α : Type} [DecidableEq ε] [DecidableEq α] : DecidableEq (Except ε α)
  | Except.ok a, Except.ok b =>
    if h : a = b then Decidable.isTrue (by rw [h])
    else Decidable.isFalse (fun c => h (by injection c))
  | Except.ok _, Except.error _ => Decidable.isFalse (fun c => Except.noConfusion c)
  | Except.error _, Except.ok _ => Decidable.isFalse (fun c => Except.noConfusion c)
  | Except.error d, Except.error e =>
    if h : d = e then Decidable.isTrue (by rw [h])
    else Decidable.isFalse (fun c => h (by injection c))

/-- Python truthiness of an optional string argument
(`None` and the empty string are falsy). -/
def truthy : Option String → Bool
  | none => false
  | some s => s ≠ ""

/-- `flow.index(x)`: position of `x` in `flow`, raising `ValueError`
when `x` is not an element. -/
def listIndex (flow : List String) (x : String) : Except PyError Nat :=
  match flow.findIdx? (· == x) with
  | some i => Except.ok i
  | none => Except.error (PyError.value (x ++ " is not in list"))

/-- `_next(flow, current)` from `status_flow.py`: `flow[0]` when
`current is None`, otherwise the element after `current`, with both the
`ValueError` of `flow.index` and the `IndexError` of `flow[i+1]`
converted to `FlowError("Invalid transition from ...")`.  (The `flow[0]`
lookup sits outside the `try`, so an empty flow would raise a bare
`IndexError`; both concrete flows are non-empty.) -/
def pyNext (flow : List String) (current : Option String) : Except PyError String :=
  match current with
  | none =>
    match flow with
    | [] => Except.error (PyError.value "list index out of range")
    | s :: _ => Except.ok s
  | some cur =>
    match flow.findIdx? (· == cur) with
    | none => Except.error (PyError.flow ("Invalid transition from " ++ cur))
    | some i =>
      match flow.get? (i + 1) with
      | none => Except.error (PyError.flow ("Invalid transition from " ++ cur))
      | some s => Except.ok s

/-- Step function of the `latest_status` query: scanning the filtered
rows in insertion order, a later row replaces the current best whenever
its timestamp is at least as large.  This fixes the tie order of the
SQL `ORDER BY at DESC ... first()` to the insertion-order-stable
reading (later-inserted row wins among equal timestamps). -/
def laterMax (best : Option StatusEvent) (e : StatusEvent) : Option StatusEvent :=
  match best with
  | none => some e
  | some b => if b.at_time ≤ e.at_time then some e else some b

/-- The row selected by the `latest_status` query in `status_flow.py`:
among rows with the given `(ref_type, ref_id)`, one with the maximal
timestamp (later-inserted wins ties). -/
def latest_event (L : Ledger) (ref_type ref_id : String) : Option StatusEvent :=
  (L.filter (fun e => e.ref_type == ref_type && e.ref_id == ref_id)).foldl laterMax none

/-- `latest_status(ref_type, ref_id)` from `status_flow.py`:
the status of the selected row, or `None` when there is no row. -/
def latest_status (L : Ledger) (ref_type ref_id : String) : Option String :=
  (latest_event L ref_type ref_id).map (fun e => e.status)

/-- Shared body of `advance_waste` / `advance_transport`: choose the
target (`to_status` only when `allow_skip` and `to_status` are truthy,
otherwise the sequence successor of `cur`) and run the monotonicity
validation, which fires only when both `cur` and the target are truthy. -/
def adv_core (flow : List String) (cur : Option String) (allow_skip : Bool)
    (to_status : Option String) : Except PyError String :=
  match (if allow_skip && truthy to_status then Except.ok (to_status.getD "")
         else pyNext flow cur : Except PyError String) with
  | Except.error e => Except.error e
  | Except.ok target =>
    if truthy cur && (target ≠ "") then
      match listIndex flow (cur.getD "") with
      | Except.error e => Except.error e
      | Except.ok ci =>
        match listIndex flow target with
        | Except.error e => Except.error e
        | Except.ok ti =>
          if ti ≤ ci then Except.error (PyError.flow "Cannot go backwards or repeat same status")
          else if ti - ci > 1 && !allow_skip then Except.error (PyError.flow "Cannot skip statuses")
          else Except.ok target
    else Except.ok target

/-- `advance_waste(waste_id, user_id, allow_skip, to_status)` from
`status_flow.py`.  Returns the Python outcome (returned target or
raised exception) together with the ledger after the call; every raise
happens before `db.session.add`, so an error leaves the ledger as it was. -/
def advance_waste (L : Ledger) (waste_id : String) (user_id : Nat)
    (allow_skip : Bool) (to_status : Option String) (now : Int) :
    Except PyError String × Ledger :=
  match adv_core WASTE_FLOW (latest_status L "waste" waste_id) allow_skip to_status with
  | Except.error e => (Except.error e, L)
  | Except.ok target =>
    (Except.ok target, L ++ [⟨"waste", waste_id, target, user_id, now⟩])

/-- Statuses that trigger the cascade in `advance_transport`
(the tuple in `if target in ("On Truck", ...)`). -/
def CASCADE_SET : List String :=
  ["On Truck", "In Transit", "Arrived Disposal Site", "In Disposal", "Completed"]

/-- One iteration of the cascade loop in `advance_transport`:
`try: advance_waste(wot.waste_id, user_id) except Exception: pass` —
the ledger is whatever the inner call left behind, and any exception is
swallowed. -/
def cascadeStep (user_id : Nat) (now : Int) (L : Ledger) (waste_id : String) : Ledger :=
  (advance_waste L waste_id user_id false none now).2

/-- `advance_transport(transport_id, user_id, allow_skip, to_status)`
from `status_flow.py`.  `wastes` is the list of waste ids associated to
the transport (the `WasteOnTransport` rows for `transport_id`, in query
order).  All cascade sub-calls share the single `now` tick of this call. -/
def advance_transport (L : Ledger) (transport_id : String) (user_id : Nat)
    (allow_skip : Bool) (to_status : Option String) (wastes : List String) (now : Int) :
    Except PyError String × Ledger :=
  match adv_core TRANSPORT_FLOW (latest_status L "transport" transport_id) allow_skip to_status with
  | Except.error e => (Except.error e, L)
  | Except.ok target =>
    let L1 := L ++ [⟨"transport", transport_id, target, user_id, now⟩]
    let L2 := if target ∈ CASCADE_SET then wastes.foldl (cascadeStep user_id now) L1 else L1
    (Except.ok target, L2)

/-- `true` exactly when the Python call raised a `FlowError`. -/
def isFlowError : Except PyError String → Bool
  | Except.error (PyError.flow _) => true
  | _ => false

/-- `true` exactly when the Python call raised a `ValueError`
(an exception other than `FlowError`). -/
def isValueError : Except PyError String → Bool
  | Except.error (PyError.value _) => true
  | _ => false

lemma foldl_laterMax_ne_none (F : List StatusEvent) (b : StatusEvent) :
    F.foldl laterMax (some b) ≠ none := by
  induction F generalizing b with
  | nil => simp
  | cons e F ih =>
    simp only [List.foldl_cons, laterMax]
    split
    · exact ih e
    · exact ih b

lemma foldl_laterMax_eq_none_iff (F : List StatusEvent) :
    F.foldl laterMax none = none ↔ F = [] := by
  cases F with
  | nil => simp
  | cons e F =>
    exact iff_of_false (foldl_laterMax_ne_none F e) (by simp)

/-- The fold behind `latest_status` selects a row of maximal timestamp,
and among equal maximal timestamps the later-inserted row: every row
before the selected one has a timestamp `≤` its own, every row after it
a strictly smaller one. -/
lemma foldl_laterMax_decomp (F : List StatusEvent) (b : StatusEvent)
    (h : F.foldl laterMax none = some b) :
    ∃ F1 F2, F = F1 ++ b :: F2 ∧ (∀ e ∈ F1, e.at_time ≤ b.at_time) ∧
      (∀ e ∈ F2, e.at_time < b.at_time) := by
  induction F using List.reverseRecOn generalizing b with
  | nil => simp at h
  | append_singleton F e ih =>
    rw [List.foldl_append, List.foldl_cons, List.foldl_nil] at h
    cases hF : F.foldl laterMax none with
    | none =>
      rw [hF] at h
      have hFe : F = [] := (foldl_laterMax_eq_none_iff F).1 hF
      simp only [laterMax] at h
      injection h with h'
      subst h'
      exact ⟨[], [], by simp [hFe], by simp, by simp⟩
    | some b' =>
      rw [hF] at h
      obtain ⟨F1, F2, hsplit, h1, h2⟩ := ih b' hF
      simp only [laterMax] at h
      by_cases hle : b'.at_time ≤ e.at_time
      · rw [if_pos hle] at h
        injection h with h'
        subst h'
        refine ⟨F, [], by simp, ?_, by simp⟩
        intro x hx
        rw [hsplit] at hx
        rcases List.mem_append.1 hx with hx | hx
        · exact le_trans (h1 x hx) hle
        · rcases List.mem_cons.1 hx with hx | hx
          · subst hx; exact hle
          · exact le_trans (le_of_lt (h2 x hx)) hle
      · rw [if_neg hle] at h
        injection h with h'
        subst h'
        push_neg at hle
        refine ⟨F1, F2 ++ [e], by rw [hsplit]; simp, h1, ?_⟩
        intro x hx
        rcases List.mem_append.1 hx with hx | hx
        · exact h2 x hx
        · simp at hx
          subst hx
          exact hle

lemma latest_event_mem (L : Ledger) (rt rid : String) (b : StatusEvent)
    (h : latest_event L rt rid = some b) :
    b ∈ L ∧ b.ref_type = rt ∧ b.ref_id = rid := by
  obtain ⟨F1, F2, hs, _, _⟩ := foldl_laterMax_decomp _ b h
  have hb : b ∈ L.filter (fun e => e.ref_type == rt && e.ref_id == rid) := by
    rw [hs]; simp
  have hm := List.mem_filter.1 hb
  have hp := hm.2
  simp only [Bool.and_eq_true, beq_iff_eq] at hp
  exact ⟨hm.1, hp.1, hp.2⟩

lemma latest_event_append (L : Ledger) (rt rid : String) (ev : StatusEvent)
    (h1 : ev.ref_type = rt) (h2 : ev.ref_id = rid) :
    latest_event (L ++ [ev]) rt rid = laterMax (latest_event L rt rid) ev := by
  unfold latest_event
  rw [List.filter_append, List.foldl_append]
  simp [h1, h2]

/-- C8: `latest_status` returns the status of the most recent event by
timestamp for the `(kind, id)` pair, `none` when no such event exists,
and among events sharing the maximal timestamp the later-inserted one
wins (every matching event inserted after the selected one has a
strictly smaller timestamp, every one before it a `≤` timestamp). -/
theorem latest_status_spec (L : Ledger) (rt rid : String) :
    (latest_status L rt rid = none ↔
      L.filter (fun e => e.ref_type == rt && e.ref_id == rid) = []) ∧
    (∀ b, latest_event L rt rid = some b →
      latest_status L rt rid = some b.status ∧ b ∈ L ∧
      b.ref_type = rt ∧ b.ref_id = rid ∧
      ∃ F1 F2,
        L.filter (fun e => e.ref_type == rt && e.ref_id == rid) = F1 ++ b :: F2 ∧
        (∀ e ∈ F1, e.at_time ≤ b.at_time) ∧
        (∀ e ∈ F2, e.at_time < b.at_time)) := by
  constructor
  · have h1 : latest_status L rt rid = none ↔ latest_event L rt rid = none := by
      unfold latest_status
      exact Option.map_eq_none'
    rw [h1]
    unfold latest_event
    exact foldl_laterMax_eq_none_iff _
  · intro b hb
    obtain ⟨hmem, hrt, hrid⟩ := latest_event_mem L rt rid b hb
    obtain ⟨F1, F2, hs, hle, hlt⟩ := foldl_laterMax_decomp _ b hb
    refine ⟨?_, hmem, hrt, hrid, F1, F2, hs, hle, hlt⟩
    unfold latest_status
    rw [hb]
    rfl

/-- C8 witness: two rows for `('waste','W')` share the timestamp `5`;
the later-inserted row (status `"B"`) wins. -/
theorem latest_status_spec_witness :
    latest_status
        [⟨"waste", "W", "A", 1, 5⟩, ⟨"waste", "W", "B", 2, 5⟩] "waste" "W" =
      some (StatusEvent.status ⟨"waste", "W", "B", 2, 5⟩) ∧
    (⟨"waste", "W", "B", 2, 5⟩ : StatusEvent) ∈
      ([⟨"waste", "W", "A", 1, 5⟩, ⟨"waste", "W", "B", 2, 5⟩] : Ledger) ∧
    StatusEvent.ref_type ⟨"waste", "W", "B", 2, 5⟩ = "waste" ∧
    StatusEvent.ref_id ⟨"waste", "W", "B", 2, 5⟩ = "W" ∧
    ∃ F1 F2,
      ([⟨"waste", "W", "A", 1, 5⟩, ⟨"waste", "W", "B", 2, 5⟩] : Ledger).filter
          (fun e => e.ref_type == "waste" && e.ref_id == "W") = F1 ++ ⟨"waste", "W", "B", 2, 5⟩ :: F2 ∧
      (∀ e ∈ F1, e.at_time ≤ StatusEvent.at_time ⟨"waste", "W", "B", 2, 5⟩) ∧
      (∀ e ∈ F2, e.at_time < StatusEvent.at_time ⟨"waste", "W", "B", 2, 5⟩) :=
  (latest_status_spec [⟨"waste", "W", "A", 1, 5⟩, ⟨"waste", "W", "B", 2, 5⟩] "waste" "W").2
    ⟨"waste", "W", "B", 2, 5⟩ (by decide)

/-- C1: a normally-returning `advance_waste` appends exactly one new
`StatusEvent`, whose status is the returned target; provided the clock
tick is `≥` the timestamps of all prior events of that waste (the
monotone-clock assumption for `datetime.utcnow()`), the new event's
timestamp is `≥` all of them and `latest_status` immediately afterwards
equals the returned target. -/
theorem advance_waste_appends_and_latest
    (L : Ledger) (wid : String) (u : Nat) (skip : Bool) (tos : Option String) (now : Int)
    (t : String) (L2 : Ledger)
    (hok : advance_waste L wid u skip tos now = (Except.ok t, L2))
    (hclock : ∀ e ∈ L, e.ref_type = "waste" → e.ref_id = wid → e.at_time ≤ now) :
    L2 = L ++ [⟨"waste", wid, t, u, now⟩] ∧
    (∀ e ∈ L, e.ref_type = "waste" → e.ref_id = wid →
      e.at_time ≤ StatusEvent.at_time ⟨"waste", wid, t, u, now⟩) ∧
    latest_status L2 "waste" wid = some t := by
  unfold advance_waste at hok
  cases hcore : adv_core WASTE_FLOW (latest_status L "waste" wid) skip tos with
  | error e => rw [hcore] at hok; cases hok
  | ok target =>
    rw [hcore] at hok
    injection hok with hok1 hok2
    injection hok1 with hok1
    subst hok1
    subst hok2
    refine ⟨rfl, hclock, ?_⟩
    unfold latest_status
    rw [latest_event_append L "waste" wid _ rfl rfl]
    cases hlat : latest_event L "waste" wid with
    | none => simp [laterMax]
    | some b =>
      obtain ⟨hmem, hrt, hrid⟩ := latest_event_mem L "waste" wid b hlat
      have hble : b.at_time ≤ now := hclock b hmem hrt hrid
      simp [laterMax, hble]

/-- C1 witness: a waste with one prior event at tick `3` advances at
tick `7`; the new event is appended and becomes the latest status. -/
theorem advance_waste_appends_and_latest_witness :
    ([⟨"waste", "W1", "Collected", 1, 3⟩, ⟨"waste", "W1", "On Truck", 2, 7⟩] : Ledger) =
      [⟨"waste", "W1", "Collected", 1, 3⟩] ++ [⟨"waste", "W1", "On Truck", 2, 7⟩] ∧
    (∀ e ∈ ([⟨"waste", "W1", "Collected", 1, 3⟩] : Ledger),
      e.ref_type = "waste" → e.ref_id = "W1" →
      e.at_time ≤ StatusEvent.at_time ⟨"waste", "W1", "On Truck", 2, 7⟩) ∧
    latest_status [⟨"waste", "W1", "Collected", 1, 3⟩, ⟨"waste", "W1", "On Truck", 2, 7⟩]
        "waste" "W1" = some "On Truck" :=
  advance_waste_appends_and_latest [⟨"waste", "W1", "Collected", 1, 3⟩] "W1" 2 false none 7
    "On Truck" _ (by decide) (by decide)

lemma adv_core_not_honored (flow : List String) (cur : Option String) (skip : Bool)
    (tos : Option String) (h : (skip && truthy tos) = false) :
    adv_core flow cur skip tos = adv_core flow cur skip none := by
  unfold adv_core
  rw [h, show (skip && truthy none) = false from by simp [truthy]]
  rfl

/-- With a current status inside `WASTE_FLOW` and any honored explicit
target inside `WASTE_FLOW`, the shared advance body raises `FlowError`
exactly when the honored target's index is `≤` the current index, or —
when no explicit target is honored — the current status is the
sequence's last element.  The gap check `ti - ci > 1` can never fire:
an explicit target is honored only together with `allow_skip = true`. -/
lemma adv_core_waste_flow_error_iff (c : String) (skip : Bool) (tos : Option String)
    (hc : c ∈ WASTE_FLOW)
    (hto : skip = true → truthy tos = true → tos.getD "" ∈ WASTE_FLOW) :
    isFlowError (adv_core WASTE_FLOW (some c) skip tos) = true ↔
      ((skip = true ∧ truthy tos = true ∧
        WASTE_FLOW.indexOf (tos.getD "") ≤ WASTE_FLOW.indexOf c) ∨
       (¬(skip = true ∧ truthy tos = true) ∧ c = WASTE_FLOW.getLastD "")) := by
  rcases tos with _ | t
  · fin_cases hc <;> cases skip <;> decide
  · by_cases ht : t = ""
    · subst ht
      fin_cases hc <;> cases skip <;> decide
    · cases skip
      · have hred : adv_core WASTE_FLOW (some c) false (some t) =
            adv_core WASTE_FLOW (some c) false none :=
          adv_core_not_honored _ _ _ _ rfl
        rw [hred]
        simp only [Bool.false_eq_true, false_and, not_false_eq_true, true_and, false_or]
        fin_cases hc <;> decide
      · have htr : truthy (some t) = true := by simp [truthy, ht]
        have hmem : t ∈ WASTE_FLOW := hto rfl htr
        fin_cases hc <;> fin_cases hmem <;> decide

/-- C2 counterexample: for a waste whose current status is `'On Truck'`,
calling advance with `allow_skip = false` and explicit target
`'Completed'` does not raise the illegal-skip `FlowError` the claim
predicts — the explicit target is ignored (it is honored only when
`allow_skip` is true) and the call succeeds, committing `'In Transit'`. -/
theorem skip_check_unreachable_counterexample :
    (advance_waste [⟨"waste", "W1", "On Truck", 1, 0⟩] "W1" 1 false (some "Completed") 5).1 =
      Except.ok "In Transit" ∧
    isFlowError
      (advance_waste [⟨"waste", "W1", "On Truck", 1, 0⟩] "W1" 1 false (some "Completed") 5).1 =
      false := by decide

/-- C2 amended: for a waste with a non-null current status in the flow
sequence (and any honored explicit target also in the sequence),
`advance_waste` raises `FlowError` exactly when: the explicit target is
honored (`allow_skip` true and target truthy) and its index is `≤` the
current index; or no explicit target is honored and the current status
is the sequence's last element.  An explicit target passed with
`allow_skip = false` is ignored rather than validated, so the
illegal-skip rejection is unreachable. -/
theorem advance_waste_flow_error_iff
    (L : Ledger) (wid : String) (u : Nat) (skip : Bool) (tos : Option String) (now : Int)
    (c : String) (hcur : latest_status L "waste" wid = some c) (hc : c ∈ WASTE_FLOW)
    (hto : skip = true → truthy tos = true → tos.getD "" ∈ WASTE_FLOW) :
    isFlowError (advance_waste L wid u skip tos now).1 = true ↔
      ((skip = true ∧ truthy tos = true ∧
        WASTE_FLOW.indexOf (tos.getD "") ≤ WASTE_FLOW.indexOf c) ∨
       (¬(skip = true ∧ truthy tos = true) ∧ c = WASTE_FLOW.getLastD "")) := by
  have hred : (advance_waste L wid u skip tos now).1 = adv_core WASTE_FLOW (some c) skip tos := by
    unfold advance_waste
    rw [hcur]
    cases adv_core WASTE_FLOW (some c) skip tos <;> rfl
  rw [hred]
  exact adv_core_waste_flow_error_iff c skip tos hc hto

/-- C2 witness: instantiations of the amended claim.  A waste at
`'On Truck'` with an honored backwards target `'Collected'` raises
`FlowError`; a waste at the terminal `'Completed'` with no explicit
target raises `FlowError`. -/
theorem advance_waste_flow_error_iff_witness :
    (isFlowError
        (advance_waste [⟨"waste", "W1", "On Truck", 1, 0⟩] "W1" 1 true (some "Collected") 5).1 =
          true ↔
      ((true = true ∧ truthy (some "Collected") = true ∧
        WASTE_FLOW.indexOf ((some "Collected").getD "") ≤ WASTE_FLOW.indexOf "On Truck") ∨
       (¬(true = true ∧ truthy (some "Collected") = true) ∧
        "On Truck" = WASTE_FLOW.getLastD ""))) ∧
    (isFlowError
        (advance_waste [⟨"waste", "W2", "Completed", 1, 0⟩] "W2" 1 false none 5).1 = true ↔
      ((false = true ∧ truthy (none : Option String) = true ∧
        WASTE_FLOW.indexOf ((none : Option String).getD "") ≤ WASTE_FLOW.indexOf "Completed") ∨
       (¬(false = true ∧ truthy (none : Option String) = true) ∧
        "Completed" = WASTE_FLOW.getLastD ""))) :=
  ⟨advance_waste_flow_error_iff [⟨"waste", "W1", "On Truck", 1, 0⟩] "W1" 1 true
      (some "Collected") 5 "On Truck" (by decide) (by decide) (fun _ _ => by decide),
   advance_waste_flow_error_iff [⟨"waste", "W2", "Completed", 1, 0⟩] "W2" 1 false
      none 5 "Completed" (by decide) (by decide) (fun _ h => by cases h)⟩

lemma listIndex_ok_of_mem (flow : List String) (x : String) (hx : x ∈ flow) :
    ∃ i, listIndex flow x = Except.ok i := by
  unfold listIndex
  cases hf : flow.findIdx? (· == x) with
  | some i => exact ⟨i, rfl⟩
  | none =>
    rw [List.findIdx?_eq_none_iff] at hf
    have := hf x hx
    simp at this

lemma pyNext_ok_mem (flow : List String) (cur : Option String) (hne : flow ≠ []) :
    (∃ s, pyNext flow cur = Except.ok s ∧ s ∈ flow) ∨
    (∃ m, pyNext flow cur = Except.error (PyError.flow m)) := by
  rcases cur with _ | c
  · rcases flow with _ | ⟨s, rest⟩
    · exact absurd rfl hne
    · exact Or.inl ⟨s, rfl, List.mem_cons_self s rest⟩
  · cases hf : flow.findIdx? (· == c) with
    | none =>
      refine Or.inr ⟨"Invalid transition from " ++ c, ?_⟩
      simp [pyNext, hf]
    | some i =>
      cases hg : flow.get? (i + 1) with
      | none =>
        refine Or.inr ⟨"Invalid transition from " ++ c, ?_⟩
        rw [List.get?_eq_getElem?] at hg
        simp [pyNext, hf, hg]
      | some s =>
        refine Or.inl ⟨s, ?_, List.get?_mem hg⟩
        rw [List.get?_eq_getElem?] at hg
        simp [pyNext, hf, hg]

/-- The validation half of the advance body never raises `ValueError`
when the stored current status and the committed target are both
members of the flow. -/
lemma validation_no_value (flow : List String) (cur : Option String) (skip : Bool)
    (target : String) (hcur : ∀ s, cur = some s → s ∈ flow) (htarget : target ∈ flow) :
    isValueError
      (if truthy cur && (target ≠ "") then
         match listIndex flow (cur.getD "") with
         | Except.error e => Except.error e
         | Except.ok ci =>
           match listIndex flow target with
           | Except.error e => Except.error e
           | Except.ok ti =>
             if ti ≤ ci then Except.error (PyError.flow "Cannot go backwards or repeat same status")
             else if ti - ci > 1 && !skip then Except.error (PyError.flow "Cannot skip statuses")
             else Except.ok target
       else Except.ok target) = false := by
  split
  · rename_i hcond
    rcases cur with _ | c
    · simp [truthy] at hcond
    · have hcmem : c ∈ flow := hcur c rfl
      obtain ⟨ci, hci⟩ := listIndex_ok_of_mem flow c hcmem
      obtain ⟨ti, hti⟩ := listIndex_ok_of_mem flow target htarget
      simp only [Option.getD_some]
      rw [hci, hti]
      dsimp only
      split
      · rfl
      · split <;> rfl
  · rfl

/-- Under the same membership conditions, the whole advance body can
only return a target or raise `FlowError` — never `ValueError`. -/
lemma adv_core_no_value_error (flow : List String) (cur : Option String) (skip : Bool)
    (tos : Option String) (hne : flow ≠ [])
    (hcur : ∀ s, cur = some s → s ∈ flow)
    (hto : skip = true → truthy tos = true → tos.getD "" ∈ flow) :
    isValueError (adv_core flow cur skip tos) = false := by
  cases hcond : (skip && truthy tos) with
  | true =>
    rw [Bool.and_eq_true] at hcond
    have hmem : tos.getD "" ∈ flow := hto hcond.1 hcond.2
    unfold adv_core
    rw [show (skip && truthy tos) = true from by rw [Bool.and_eq_true]; exact hcond]
    simp only [if_true]
    exact validation_no_value flow cur skip (tos.getD "") hcur hmem
  | false =>
    rw [adv_core_not_honored flow cur skip tos hcond]
    unfold adv_core
    rw [show (skip && truthy none) = false from by simp [truthy]]
    simp only [Bool.false_eq_true, if_false]
    rcases pyNext_ok_mem flow cur hne with ⟨s, hs, hmem⟩ | ⟨m, hm⟩
    · rw [hs]
      exact validation_no_value flow cur skip s hcur hmem
    · rw [hm]
      rfl

/-- C4 counterexample: a call on a waste at `'Collected'` with
`allow_skip = true` and the out-of-flow explicit target `'Bogus'` lets
a `ValueError` (from `WASTE_FLOW.index(target)`) escape — the outcome
is neither a returned status nor a `FlowError`. -/
theorem advance_value_error_escapes :
    (advance_waste [⟨"waste", "W1", "Collected", 1, 0⟩] "W1" 1 true (some "Bogus") 5).1 =
      Except.error (PyError.value "Bogus is not in list") ∧
    isFlowError
      (advance_waste [⟨"waste", "W1", "Collected", 1, 0⟩] "W1" 1 true (some "Bogus") 5).1 =
      false ∧
    (∀ t, (advance_waste [⟨"waste", "W1", "Collected", 1, 0⟩] "W1" 1 true (some "Bogus") 5).1 ≠
      Except.ok t) := by
  refine ⟨by decide, by decide, ?_⟩
  intro t h
  cases h

/-- C4 amended: provided the stored current status (when non-null) and
any honored explicit target are members of the corresponding flow
sequence, every `advance` call either returns a status or raises
`FlowError` (never `ValueError`); and — unconditionally — whenever any
error is raised, the ledger is left unchanged (no event appended). -/
theorem advance_total_or_flow_error
    (L : Ledger) (id : String) (u : Nat) (skip : Bool) (tos : Option String) (now : Int)
    (wastes : List String) :
    ((∀ s, latest_status L "waste" id = some s → s ∈ WASTE_FLOW) →
      (skip = true → truthy tos = true → tos.getD "" ∈ WASTE_FLOW) →
      isValueError (advance_waste L id u skip tos now).1 = false) ∧
    ((∀ s, latest_status L "transport" id = some s → s ∈ TRANSPORT_FLOW) →
      (skip = true → truthy tos = true → tos.getD "" ∈ TRANSPORT_FLOW) →
      isValueError (advance_transport L id u skip tos wastes now).1 = false) ∧
    (∀ e, (advance_waste L id u skip tos now).1 = Except.error e →
      (advance_waste L id u skip tos now).2 = L) ∧
    (∀ e, (advance_transport L id u skip tos wastes now).1 = Except.error e →
      (advance_transport L id u skip tos wastes now).2 = L) := by
  refine ⟨?_, ?_, ?_, ?_⟩
  · intro hcur hto
    unfold advance_waste
    cases hcore : adv_core WASTE_FLOW (latest_status L "waste" id) skip tos with
    | error e =>
      have := adv_core_no_value_error WASTE_FLOW (latest_status L "waste" id) skip tos
        (by decide) hcur hto
      rw [hcore] at this
      exact this
    | ok target => rfl
  · intro hcur hto
    unfold advance_transport
    cases hcore : adv_core TRANSPORT_FLOW (latest_status L "transport" id) skip tos with
    | error e =>
      have := adv_core_no_value_error TRANSPORT_FLOW (latest_status L "transport" id) skip tos
        (by decide) hcur hto
      rw [hcore] at this
      exact this
    | ok target => rfl
  · intro e he
    unfold advance_waste at he ⊢
    cases hcore : adv_core WASTE_FLOW (latest_status L "waste" id) skip tos with
    | error e' => rfl
    | ok target =>
      rw [hcore] at he
      cases he
  · intro e he
    unfold advance_transport at he ⊢
    cases hcore : adv_core TRANSPORT_FLOW (latest_status L "transport" id) skip tos with
    | error e' => rfl
    | ok target =>
      rw [hcore] at he
      cases he

/-- C4 witness: with an empty ledger and no explicit target, both
advance calls raise no `ValueError`, and the error-unchanged-ledger
facts hold at this input. -/
theorem advance_total_or_flow_error_witness :
    isValueError (advance_waste [] "X" 2 false none 9).1 = false ∧
    isValueError (advance_transport [] "X" 2 false none ["W1"] 9).1 = false :=
  ⟨(advance_total_or_flow_error [] "X" 2 false none 9 ["W1"]).1
      (fun s h => by cases h) (fun h h' => by cases h'),
   (advance_total_or_flow_error [] "X" 2 false none 9 ["W1"]).2.1
      (fun s h => by cases h) (fun h h' => by cases h')⟩

lemma advance_waste_snd_cases (L : Ledger) (wid : String) (u : Nat) (skip : Bool)
    (tos : Option String) (now : Int) :
    (advance_waste L wid u skip tos now).2 = L ∨
    ∃ ev, (advance_waste L wid u skip tos now).2 = L ++ [ev] := by
  unfold advance_waste
  cases adv_core WASTE_FLOW (latest_status L "waste" wid) skip tos with
  | error e => exact Or.inl rfl
  | ok target => exact Or.inr ⟨_, rfl⟩

lemma cascadeStep_mem (u : Nat) (now : Int) (M : Ledger) (w : String) (e : StatusEvent)
    (he : e ∈ M) : e ∈ cascadeStep u now M w := by
  unfold cascadeStep
  rcases advance_waste_snd_cases M w u false none now with h | ⟨ev, h⟩
  · rw [h]; exact he
  · rw [h]; exact List.mem_append_left _ he

lemma foldl_cascade_mem (u : Nat) (now : Int) (wastes : List String) (M : Ledger)
    (e : StatusEvent) (he : e ∈ M) : e ∈ wastes.foldl (cascadeStep u now) M := by
  induction wastes generalizing M with
  | nil => exact he
  | cons w rest ih => exact ih (cascadeStep u now M w) (cascadeStep_mem u now M w e he)

/-- C3: a successful `advance_transport` whose committed target lies in
the cascade trigger set (which contains all three `TRANSPORT_FLOW`
statuses) first appends the transport's own event and then folds a
default-successor `advance_waste` attempt (no explicit target, no skip)
over every associated waste in order; a failing per-waste attempt
leaves the ledger untouched and the fold simply continues with the
remaining wastes, and the transport's own event is present in the final
ledger regardless of per-waste outcomes. -/
theorem advance_transport_cascade
    (L : Ledger) (tid : String) (u : Nat) (skip : Bool) (tos : Option String)
    (wastes : List String) (now : Int) (t : String) (L2 : Ledger)
    (hok : advance_transport L tid u skip tos wastes now = (Except.ok t, L2))
    (ht : t ∈ CASCADE_SET) :
    (∀ s ∈ TRANSPORT_FLOW, s ∈ CASCADE_SET) ∧
    L2 = wastes.foldl (cascadeStep u now) (L ++ [⟨"transport", tid, t, u, now⟩]) ∧
    (⟨"transport", tid, t, u, now⟩ : StatusEvent) ∈ L2 ∧
    (∀ (M : Ledger) (w : String) (e : PyError),
      (advance_waste M w u false none now).1 = Except.error e →
      cascadeStep u now M w = M) ∧
    (∀ (M : Ledger) (w : String) (rest : List String),
      (w :: rest).foldl (cascadeStep u now) M =
        rest.foldl (cascadeStep u now) (cascadeStep u now M w)) := by
  unfold advance_transport at hok
  cases hcore : adv_core TRANSPORT_FLOW (latest_status L "transport" tid) skip tos with
  | error e => rw [hcore] at hok; cases hok
  | ok target =>
    rw [hcore] at hok
    injection hok with h1 h2
    injection h1 with h1
    subst h1
    subst h2
    rw [if_pos ht]
    refine ⟨by decide, rfl, ?_, ?_, ?_⟩
    · exact foldl_cascade_mem u now wastes _ _ (by simp)
    · intro M w e he
      unfold cascadeStep
      unfold advance_waste at he ⊢
      cases hc : adv_core WASTE_FLOW (latest_status M "waste" w) false none with
      | error e' => rfl
      | ok tg =>
        rw [hc] at he
        cases he
    · intro M w rest
      rfl

/-- C3 witness: transport `T` (no prior events) advances by default to
`'In Transit'` carrying `W1` (at `'Collected'`) and `W2`
(at `'On Truck'`); the transport's own event is recorded and the
cascade advances `W1` to its successor `'On Truck'`. -/
theorem advance_transport_cascade_witness :
    ((∀ s ∈ TRANSPORT_FLOW, s ∈ CASCADE_SET) ∧
      ([⟨"waste", "W1", "Collected", 9, 0⟩, ⟨"waste", "W2", "On Truck", 9, 1⟩,
        ⟨"transport", "T", "In Transit", 7, 5⟩, ⟨"waste", "W1", "On Truck", 7, 5⟩,
        ⟨"waste", "W2", "In Transit", 7, 5⟩] : Ledger) =
        (["W1", "W2"]).foldl (cascadeStep 7 5)
          ([⟨"waste", "W1", "Collected", 9, 0⟩, ⟨"waste", "W2", "On Truck", 9, 1⟩] ++
            [⟨"transport", "T", "In Transit", 7, 5⟩]) ∧
      (⟨"transport", "T", "In Transit", 7, 5⟩ : StatusEvent) ∈
        ([⟨"waste", "W1", "Collected", 9, 0⟩, ⟨"waste", "W2", "On Truck", 9, 1⟩,
          ⟨"transport", "T", "In Transit", 7, 5⟩, ⟨"waste", "W1", "On Truck", 7, 5⟩,
          ⟨"waste", "W2", "In Transit", 7, 5⟩] : Ledger) ∧
      (∀ (M : Ledger) (w : String) (e : PyError),
        (advance_waste M w 7 false none 5).1 = Except.error e →
        cascadeStep 7 5 M w = M) ∧
      (∀ (M : Ledger) (w : String) (rest : List String),
        (w :: rest).foldl (cascadeStep 7 5) M =
          rest.foldl (cascadeStep 7 5) (cascadeStep 7 5 M w))) ∧
    latest_status
      [⟨"waste", "W1", "Collected", 9, 0⟩, ⟨"waste", "W2", "On Truck", 9, 1⟩,
       ⟨"transport", "T", "In Transit", 7, 5⟩, ⟨"waste", "W1", "On Truck", 7, 5⟩,
       ⟨"waste", "W2", "In Transit", 7, 5⟩] "waste" "W1" = some "On Truck" :=
  ⟨advance_transport_cascade
      [⟨"waste", "W1", "Collected", 9, 0⟩, ⟨"waste", "W2", "On Truck", 9, 1⟩] "T" 7 false none
      ["W1", "W2"] 5 "In Transit"
      [⟨"waste", "W1", "Collected", 9, 0⟩, ⟨"waste", "W2", "On Truck", 9, 1⟩,
       ⟨"transport", "T", "In Transit", 7, 5⟩, ⟨"waste", "W1", "On Truck", 7, 5⟩,
       ⟨"waste", "W2", "In Transit", 7, 5⟩] (by decide) (by decide),
   by decide⟩

/-- `str(e)` for the exception caught in `bulk_update_status`:
a `FlowError` keeps its message; any other exception is reported as
`"An unexpected error occurred: ..."`. -/
def errMsg : PyError → String
  | PyError.flow m => m
  | PyError.value m => "An unexpected error occurred: " ++ m

/-- `failed_updates[waste_id] = msg` on a Python dict, modelled as an
insertion-ordered association list: overwrite an existing key,
otherwise append. -/
def dictInsert (d : List (String × String)) (k v : String) : List (String × String) :=
  if d.any (fun p => p.1 == k) then
    d.map (fun p => if p.1 == k then (k, v) else p)
  else d ++ [(k, v)]

/-- One iteration of the loop in `bulk_update_status` (`views.py`):
the accumulator is `(ledger, updated_count, failed_updates)`. -/
def bulkStep (user_id : Nat) (action : String) (target_status : Option String) (now : Int)
    (acc : Ledger × Nat × List (String × String)) (waste_id : String) :
    Ledger × Nat × List (String × String) :=
  if action == "advance" then
    match advance_waste acc.1 waste_id user_id false none now with
    | (Except.ok _, L2) => (L2, acc.2.1 + 1, acc.2.2)
    | (Except.error e, L2) => (L2, acc.2.1, dictInsert acc.2.2 waste_id (errMsg e))
  else if action == "set_status" then
    if !truthy target_status then
      (acc.1, acc.2.1, dictInsert acc.2.2 waste_id "Target status not provided.")
    else
      match advance_waste acc.1 waste_id user_id false target_status now with
      | (Except.ok _, L2) => (L2, acc.2.1 + 1, acc.2.2)
      | (Except.error e, L2) => (L2, acc.2.1, dictInsert acc.2.2 waste_id (errMsg e))
  else (acc.1, acc.2.1 + 1, acc.2.2)

/-- The JSON payload of `bulk_update_status`. -/
structure BulkResult where
  updated_count : Nat
  failed : List (String × String)
  status : String
deriving Repr, DecidableEq

/-- `bulk_update_status` from `views.py`: reject an empty id list with
a 400 error payload; otherwise run the per-id loop and classify the
overall status by comparing `updated_count` with the number of ids. -/
def bulk_update_status (L : Ledger) (waste_ids : List String) (action : String)
    (target_status : Option String) (user_id : Nat) (now : Int) :
    Except (String × String) (Ledger × BulkResult) :=
  if waste_ids.isEmpty then Except.error ("No waste packages selected.", "error")
  else
    match waste_ids.foldl (bulkStep user_id action target_status now) (L, 0, []) with
    | (L2, cnt, failed) =>
      Except.ok (L2, ⟨cnt, failed,
        if cnt == waste_ids.length then "success"
        else if cnt > 0 then "partial_success"
        else "error"⟩)

lemma dictInsert_fresh (d : List (String × String)) (k v : String)
    (h : ∀ p ∈ d, p.1 ≠ k) : dictInsert d k v = d ++ [(k, v)] := by
  unfold dictInsert
  rw [if_neg]
  simp only [List.any_eq_true, not_exists, not_and]
  intro p hp
  simp [h p hp]

lemma bulkStep_cases (u : Nat) (action : String) (tstat : Option String) (now : Int)
    (acc : Ledger × Nat × List (String × String)) (w : String) :
    (∃ L2, bulkStep u action tstat now acc w = (L2, acc.2.1 + 1, acc.2.2)) ∨
    (∃ L2 v, bulkStep u action tstat now acc w = (L2, acc.2.1, dictInsert acc.2.2 w v)) := by
  unfold bulkStep
  split
  · split
    · exact Or.inl ⟨_, rfl⟩
    · exact Or.inr ⟨_, _, rfl⟩
  · split
    · split
      · exact Or.inr ⟨_, _, rfl⟩
      · split
        · exact Or.inl ⟨_, rfl⟩
        · exact Or.inr ⟨_, _, rfl⟩
    · exact Or.inl ⟨_, rfl⟩

lemma bulk_fold_invariant (u : Nat) (action : String) (tstat : Option String) (now : Int)
    (ids : List String) (acc : Ledger × Nat × List (String × String))
    (hdisj : ∀ p ∈ acc.2.2, p.1 ∉ ids) (hnd : ids.Nodup) :
    (ids.foldl (bulkStep u action tstat now) acc).2.1 +
        (ids.foldl (bulkStep u action tstat now) acc).2.2.length =
      acc.2.1 + acc.2.2.length + ids.length ∧
    (∀ p ∈ (ids.foldl (bulkStep u action tstat now) acc).2.2, p.1 ∈ ids ∨ p ∈ acc.2.2) := by
  induction ids generalizing acc with
  | nil => exact ⟨by simp, fun p hp => Or.inr hp⟩
  | cons w rest ih =>
    have hw : w ∈ w :: rest := List.mem_cons_self w rest
    have hndr : rest.Nodup := (List.nodup_cons.mp hnd).2
    have hwrest : w ∉ rest := (List.nodup_cons.mp hnd).1
    rw [List.foldl_cons]
    rcases bulkStep_cases u action tstat now acc w with ⟨L2, heq⟩ | ⟨L2, v, heq⟩
    · rw [heq]
      have hdisj' : ∀ p ∈ ((L2, acc.2.1 + 1, acc.2.2) :
          Ledger × Nat × List (String × String)).2.2, p.1 ∉ rest := by
        intro p hp hmem
        exact hdisj p hp (List.mem_cons_of_mem w hmem)
      obtain ⟨hcnt, hmem⟩ := ih (L2, acc.2.1 + 1, acc.2.2) hdisj' hndr
      constructor
      · simp only [List.length_cons] at hcnt ⊢
        omega
      · intro p hp
        rcases hmem p hp with h | h
        · exact Or.inl (List.mem_cons_of_mem w h)
        · exact Or.inr h
    · have hfresh : ∀ p ∈ acc.2.2, p.1 ≠ w := by
        intro p hp he
        exact hdisj p hp (he ▸ hw)
      rw [heq, dictInsert_fresh acc.2.2 w v hfresh]
      have hdisj' : ∀ p ∈ ((L2, acc.2.1, acc.2.2 ++ [(w, v)]) :
          Ledger × Nat × List (String × String)).2.2, p.1 ∉ rest := by
        intro p hp
        rcases List.mem_append.1 hp with h | h
        · exact fun hmem => hdisj p h (List.mem_cons_of_mem w hmem)
        · simp at h
          subst h
          exact hwrest
      obtain ⟨hcnt, hmem⟩ := ih (L2, acc.2.1, acc.2.2 ++ [(w, v)]) hdisj' hndr
      constructor
      · simp only [List.length_append, List.length_singleton, List.length_cons,
          List.length_nil] at hcnt ⊢
        omega
      · intro p hp
        rcases hmem p hp with h | h
        · exact Or.inl (List.mem_cons_of_mem w h)
        · rcases List.mem_append.1 h with h | h
          · exact Or.inr h
          · simp at h
            subst h
            exact Or.inl hw

/-- C5: a bulk update over a non-empty, duplicate-free list of `n`
waste ids applies `advance_waste` independently per id; no per-id
failure aborts the batch; `updatedCount` equals `n` minus the number of
failures; every failing id is recorded in the failure map; and the
overall status is `success` when no id failed, `partial_success` when
some but not all failed, `error` when all failed. -/
theorem bulk_update_status_spec
    (L : Ledger) (ids : List String) (action : String) (tstat : Option String)
    (u : Nat) (now : Int) (hne : ids ≠ []) (hnd : ids.Nodup) :
    ∃ L2 res, bulk_update_status L ids action tstat u now = Except.ok (L2, res) ∧
      res.updated_count + res.failed.length = ids.length ∧
      (res.status = "success" ↔ res.failed.length = 0) ∧
      (res.status = "partial_success" ↔
        0 < res.failed.length ∧ res.failed.length < ids.length) ∧
      (res.status = "error" ↔ res.failed.length = ids.length) ∧
      (∀ p ∈ res.failed, p.1 ∈ ids) := by
  have hlenpos : 0 < ids.length := List.length_pos.mpr hne
  obtain ⟨hcnt, hmemb⟩ :=
    bulk_fold_invariant u action tstat now ids (L, 0, []) (by simp) hnd
  unfold bulk_update_status
  rw [if_neg (by simp [List.isEmpty_iff, hne])]
  rcases hres : ids.foldl (bulkStep u action tstat now) (L, 0, []) with ⟨L2, cnt, failed⟩
  rw [hres] at hcnt hmemb
  simp only [List.length_nil, Nat.add_zero, Nat.zero_add, List.not_mem_nil, or_false]
    at hcnt hmemb
  refine ⟨L2, ⟨cnt, failed,
    if cnt == ids.length then "success"
    else if cnt > 0 then "partial_success" else "error"⟩, rfl, ?_, ?_, ?_, ?_, ?_⟩
  all_goals dsimp only
  · exact hcnt
  · by_cases h1 : cnt = ids.length
    · rw [if_pos (by simp [h1])]
      simp only [true_iff]
      omega
    · rw [if_neg (by simp [h1])]
      by_cases h2 : 0 < cnt
      · rw [if_pos (by simpa using h2)]
        exact ⟨fun h => absurd h (by decide), fun h => by omega⟩
      · rw [if_neg (by simpa using h2)]
        exact ⟨fun h => absurd h (by decide), fun h => by omega⟩
  · by_cases h1 : cnt = ids.length
    · rw [if_pos (by simp [h1])]
      exact ⟨fun h => absurd h (by decide), fun h => by omega⟩
    · rw [if_neg (by simp [h1])]
      by_cases h2 : 0 < cnt
      · rw [if_pos (by simpa using h2)]
        simp only [true_iff]
        omega
      · rw [if_neg (by simpa using h2)]
        exact ⟨fun h => absurd h (by decide), fun h => by omega⟩
  · by_cases h1 : cnt = ids.length
    · rw [if_pos (by simp [h1])]
      exact ⟨fun h => absurd h (by decide), fun h => by omega⟩
    · rw [if_neg (by simp [h1])]
      by_cases h2 : 0 < cnt
      · rw [if_pos (by simpa using h2)]
        exact ⟨fun h => absurd h (by decide), fun h => by omega⟩
      · rw [if_neg (by simpa using h2)]
        simp only [true_iff]
        omega
  · intro p hp
    exact hmemb p hp

/-- C5 witness: 3 ids with 1 failure (`"B"` is already at the terminal
`'Completed'`) yield `partial_success`, `updatedCount = 2`, and the
failing id present in the failure map with its `FlowError` message. -/
theorem bulk_update_status_spec_witness :
    (∃ L2 res, bulk_update_status [⟨"waste", "B", "Completed", 1, 0⟩] ["A", "B", "C"]
        "advance" none 4 9 = Except.ok (L2, res) ∧
      res.updated_count + res.failed.length = (["A", "B", "C"] : List String).length ∧
      (res.status = "success" ↔ res.failed.length = 0) ∧
      (res.status = "partial_success" ↔
        0 < res.failed.length ∧ res.failed.length < (["A", "B", "C"] : List String).length) ∧
      (res.status = "error" ↔ res.failed.length = (["A", "B", "C"] : List String).length) ∧
      (∀ p ∈ res.failed, p.1 ∈ (["A", "B", "C"] : List String))) ∧
    bulk_update_status [⟨"waste", "B", "Completed", 1, 0⟩] ["A", "B", "C"] "advance" none 4 9 =
      Except.ok
        ([⟨"waste", "B", "Completed", 1, 0⟩, ⟨"waste", "A", "Collected", 4, 9⟩,
          ⟨"waste", "C", "Collected", 4, 9⟩],
         ⟨2, [("B", "Invalid transition from Completed")], "partial_success"⟩) :=
  ⟨bulk_update_status_spec [⟨"waste", "B", "Completed", 1, 0⟩] ["A", "B", "C"] "advance" none
      4 9 (by decide) (by decide),
   by decide⟩

/-- An incident emitted by the on-the-fly detection in `dashboard`
(`views.py`): `{"type": ..., "ref_id": ..., "detail": ...}`. -/
structure Incident where
  type : String
  ref_id : String
  detail : String
deriving Repr, DecidableEq

/-- A `(lat, lng)` coordinate pair.  Coordinates and distances are
rationals; the transcendental haversine evaluation itself is handled
separately over the reals (see `haversine_m`), and the scan logic is
parametric in the distance function. -/
abbrev GeoPoint := ℚ × ℚ

/-- A transport as seen by the dashboard scan: its id, the planned
route vertices decoded from GeoJSON (`route_points_from_geojson`), and
its recorded GPS samples in query order. -/
structure TransportRec where
  transport_id : String
  route : List GeoPoint
  gps : List GeoPoint
deriving Repr, DecidableEq

/-- `min_distance_to_polyline_m` from `utils.py`: the minimum of the
distances from the point to each polyline vertex, `inf` (here `⊤`) for
an empty polyline. -/
def min_distance_to_polyline_m (dist : GeoPoint → GeoPoint → ℚ) (p : GeoPoint)
    (poly : List GeoPoint) : WithTop ℚ :=
  poly.foldl (fun m q => min m ((dist p q : ℚ) : WithTop ℚ)) ⊤

/-- `int(dmin)` for the incident detail: Python `int()` truncates
toward zero (`⊤` never reaches this point in the scan). -/
def pyInt (d : WithTop ℚ) : Int :=
  Int.tdiv (d.untop' 0).num (d.untop' 0).den

/-- The inner loop of the route-deviation scan in `dashboard`: walk the
GPS samples in order and, at the first sample whose minimum distance to
the route strictly exceeds the buffer, emit one incident and `break`. -/
def scanPoints (dist : GeoPoint → GeoPoint → ℚ) (buffer : ℚ) (tid : String)
    (route : List GeoPoint) : List GeoPoint → List Incident
  | [] => []
  | p :: rest =>
    if ((buffer : ℚ) : WithTop ℚ) < min_distance_to_polyline_m dist p route then
      [⟨"route_deviation", tid,
        "deviation " ++ toString (pyInt (min_distance_to_polyline_m dist p route)) ++ " m"⟩]
    else scanPoints dist buffer tid route rest

/-- The route-deviation half of the incident scan in `dashboard`:
transports with an empty decoded route are skipped (`continue`), the
others contribute the incidents of their GPS walk, concatenated in
transport order. -/
def detect_route_deviation (dist : GeoPoint → GeoPoint → ℚ) (buffer : ℚ)
    (ts : List TransportRec) : List Incident :=
  (ts.map (fun t =>
    if t.route.isEmpty then []
    else scanPoints dist buffer t.transport_id t.route t.gps)).flatten

lemma scanPoints_shape (dist : GeoPoint → GeoPoint → ℚ) (buffer : ℚ) (tid : String)
    (route : List GeoPoint) (gps : List GeoPoint) :
    ∀ i ∈ scanPoints dist buffer tid route gps,
      i.type = "route_deviation" ∧ i.ref_id = tid := by
  induction gps with
  | nil => intro i hi; cases hi
  | cons p rest ih =>
    intro i hi
    unfold scanPoints at hi
    split at hi
    · simp at hi
      subst hi
      exact ⟨rfl, rfl⟩
    · exact ih i hi

lemma scanPoints_length (dist : GeoPoint → GeoPoint → ℚ) (buffer : ℚ) (tid : String)
    (route : List GeoPoint) (gps : List GeoPoint) :
    (scanPoints dist buffer tid route gps).length =
      if ∃ p ∈ gps, ((buffer : ℚ) : WithTop ℚ) < min_distance_to_polyline_m dist p route
      then 1 else 0 := by
  induction gps with
  | nil => simp [scanPoints]
  | cons p rest ih =>
    unfold scanPoints
    split
    · rename_i hbr
      rw [if_pos ⟨p, List.mem_cons_self p rest, hbr⟩]
      rfl
    · rename_i hbr
      rw [ih]
      by_cases hex : ∃ q ∈ rest,
          ((buffer : ℚ) : WithTop ℚ) < min_distance_to_polyline_m dist q route
      · rw [if_pos hex, if_pos]
        obtain ⟨q, hq, h⟩ := hex
        exact ⟨q, List.mem_cons_of_mem p hq, h⟩
      · rw [if_neg hex, if_neg]
        rintro ⟨q, hq, h⟩
        rcases List.mem_cons.1 hq with rfl | hq
        · exact hbr h
        · exact hex ⟨q, hq, h⟩

lemma countP_scan_entry (dist : GeoPoint → GeoPoint → ℚ) (buffer : ℚ) (tid : String)
    (t : TransportRec) :
    ((if t.route.isEmpty then []
      else scanPoints dist buffer t.transport_id t.route t.gps).countP
        (fun i => i.ref_id == tid)) =
      if t.transport_id = tid ∧ t.route ≠ [] ∧ ∃ p ∈ t.gps,
          ((buffer : ℚ) : WithTop ℚ) < min_distance_to_polyline_m dist p t.route
      then 1 else 0 := by
  by_cases hr : t.route.isEmpty
  · rw [if_pos hr, if_neg]
    · rfl
    · rintro ⟨-, hne, -⟩
      exact hne (List.isEmpty_iff.1 hr)
  · rw [if_neg hr]
    by_cases hid : t.transport_id = tid
    · have hall : ∀ i ∈ scanPoints dist buffer t.transport_id t.route t.gps,
          (fun i => i.ref_id == tid) i = true := by
        intro i hi
        have := (scanPoints_shape dist buffer t.transport_id t.route t.gps i hi).2
        simp [this, hid]
      rw [List.countP_eq_length.mpr hall, scanPoints_length]
      by_cases hex : ∃ p ∈ t.gps,
          ((buffer : ℚ) : WithTop ℚ) < min_distance_to_polyline_m dist p t.route
      · rw [if_pos hex, if_pos ⟨hid, fun h => hr (by simp [h]), hex⟩]
      · rw [if_neg hex, if_neg]
        rintro ⟨-, -, hex'⟩
        exact hex hex'
    · have hall : ∀ i ∈ scanPoints dist buffer t.transport_id t.route t.gps,
          ¬((fun i => i.ref_id == tid) i = true) := by
        intro i hi
        have := (scanPoints_shape dist buffer t.transport_id t.route t.gps i hi).2
        simp [this, hid]
      rw [List.countP_eq_zero.mpr hall, if_neg]
      rintro ⟨h, -, -⟩
      exact hid h

/-- C6: in a single scan, each transport with a non-empty route emits
exactly one `route_deviation` incident when at least one of its GPS
samples has minimum vertex distance strictly above the buffer, and zero
otherwise — never more than one even if several samples breach; a
transport with an empty route emits none, and every emitted incident
has type `route_deviation`.  The statement is parametric in the
distance function (instantiated by the haversine of `utils.py`). -/
theorem route_deviation_once_per_transport
    (dist : GeoPoint → GeoPoint → ℚ) (buffer : ℚ) (ts : List TransportRec)
    (t : TransportRec) (hmem : t ∈ ts)
    (hnd : (ts.map (fun x => x.transport_id)).Nodup) :
    ((detect_route_deviation dist buffer ts).countP
        (fun i => i.ref_id == t.transport_id) =
      if t.route ≠ [] ∧ ∃ p ∈ t.gps,
          ((buffer : ℚ) : WithTop ℚ) < min_distance_to_polyline_m dist p t.route
      then 1 else 0) ∧
    (∀ i ∈ detect_route_deviation dist buffer ts, i.type = "route_deviation") := by
  constructor
  · induction ts with
    | nil => cases hmem
    | cons t' rest ih =>
      have hnd' : (rest.map (fun x => x.transport_id)).Nodup :=
        (List.nodup_cons.mp hnd).2
      have hhead : t'.transport_id ∉ rest.map (fun x => x.transport_id) :=
        (List.nodup_cons.mp hnd).1
      unfold detect_route_deviation
      rw [List.map_cons, List.flatten_cons, List.countP_append]
      rcases List.mem_cons.1 hmem with rfl | hmem'
      · rw [countP_scan_entry]
        have hz : (detect_route_deviation dist buffer rest).countP
            (fun i => i.ref_id == t.transport_id) = 0 := by
          rw [List.countP_eq_zero]
          intro i hi
          unfold detect_route_deviation at hi
          rw [List.mem_flatten] at hi
          obtain ⟨l, hl, hil⟩ := hi
          rw [List.mem_map] at hl
          obtain ⟨t'', ht'', rfl⟩ := hl
          have hid : i.ref_id = t''.transport_id := by
            by_cases hrr : t''.route.isEmpty
            · rw [if_pos hrr] at hil
              cases hil
            · rw [if_neg hrr] at hil
              exact (scanPoints_shape dist buffer t''.transport_id t''.route t''.gps
                i hil).2
          have : t''.transport_id ≠ t.transport_id := by
            intro he
            exact hhead (he ▸ List.mem_map_of_mem (fun x => x.transport_id) ht'')
          simp [hid, this]
        rw [show detect_route_deviation dist buffer rest =
            (rest.map (fun t =>
              if t.route.isEmpty then []
              else scanPoints dist buffer t.transport_id t.route t.gps)).flatten from rfl]
          at hz
        rw [hz, Nat.add_zero]
        by_cases hc : t.route ≠ [] ∧ ∃ p ∈ t.gps,
            ((buffer : ℚ) : WithTop ℚ) < min_distance_to_polyline_m dist p t.route
        · rw [if_pos ⟨rfl, hc.1, hc.2⟩, if_pos hc]
        · rw [if_neg hc, if_neg]
          rintro ⟨-, h1, h2⟩
          exact hc ⟨h1, h2⟩
      · have hne : t'.transport_id ≠ t.transport_id := by
          intro he
          exact hhead (he ▸ List.mem_map_of_mem (fun x => x.transport_id) hmem')
        rw [countP_scan_entry, if_neg (fun h => hne h.1), Nat.zero_add]
        exact ih hmem' hnd'
  · intro i hi
    unfold detect_route_deviation at hi
    rw [List.mem_flatten] at hi
    obtain ⟨l, hl, hil⟩ := hi
    rw [List.mem_map] at hl
    obtain ⟨t'', _, rfl⟩ := hl
    by_cases hrr : t''.route.isEmpty
    · rw [if_pos hrr] at hil
      cases hil
    · rw [if_neg hrr] at hil
      exact (scanPoints_shape dist buffer t''.transport_id t''.route t''.gps i hil).1

/-- C6 witness: the spec's scenario with a taxicab test distance —
transport `T1` has one route vertex and two samples at distance 100 and
200 from it; with a 150 buffer exactly one incident is counted for `T1`
even though a later walk could breach again, and the route-less `T2`
emits none (total scan output is the single `T1` incident). -/
theorem route_deviation_once_per_transport_witness :
    ((detect_route_deviation (fun p _ => p.1) 150
        [⟨"T1", [(0, 0)], [(100, 0), (200, 0), (300, 0)]⟩,
         ⟨"T2", [], [(999, 0)]⟩]).countP
        (fun i => i.ref_id == TransportRec.transport_id
          ⟨"T1", [(0, 0)], [(100, 0), (200, 0), (300, 0)]⟩) =
      if TransportRec.route (⟨"T1", [(0, 0)], [(100, 0), (200, 0), (300, 0)]⟩ :
            TransportRec) ≠ [] ∧
          ∃ p ∈ TransportRec.gps (⟨"T1", [(0, 0)], [(100, 0), (200, 0), (300, 0)]⟩ :
            TransportRec),
          ((150 : ℚ) : WithTop ℚ) <
            min_distance_to_polyline_m (fun p _ => p.1) p
              (TransportRec.route (⟨"T1", [(0, 0)], [(100, 0), (200, 0), (300, 0)]⟩ :
                TransportRec))
      then 1 else 0) ∧
    (∀ i ∈ detect_route_deviation (fun p _ => p.1) 150
        [⟨"T1", [(0, 0)], [(100, 0), (200, 0), (300, 0)]⟩, ⟨"T2", [], [(999, 0)]⟩],
      i.type = "route_deviation") ∧
    detect_route_deviation (fun p _ => p.1) 150
        [⟨"T1", [(0, 0)], [(100, 0), (200, 0), (300, 0)]⟩, ⟨"T2", [], [(999, 0)]⟩] =
      [⟨"route_deviation", "T1", "deviation 200 m"⟩] :=
  ⟨(route_deviation_once_per_transport (fun p _ => p.1) 150
      [⟨"T1", [(0, 0)], [(100, 0), (200, 0), (300, 0)]⟩, ⟨"T2", [], [(999, 0)]⟩]
      ⟨"T1", [(0, 0)], [(100, 0), (200, 0), (300, 0)]⟩ (by decide) (by decide)).1,
   (route_deviation_once_per_transport (fun p _ => p.1) 150
      [⟨"T1", [(0, 0)], [(100, 0), (200, 0), (300, 0)]⟩, ⟨"T2", [], [(999, 0)]⟩]
      ⟨"T1", [(0, 0)], [(100, 0), (200, 0), (300, 0)]⟩ (by decide) (by decide)).2,
   by decide⟩

/-- A waste package as seen by the overdue scan in `dashboard`:
its id and its optional `collected_time` (integer ticks; here the ticks
are seconds, so that `timedelta(hours=24)` is `86400`). -/
structure WasteRec where
  waste_id : String
  collected_time : Option Int
deriving Repr, DecidableEq

/-- `overdue_threshold()` from `utils.py`: 24 hours, in seconds. -/
def overdue_threshold : Int := 24 * 60 * 60

/-- The per-package condition of the overdue scan in `dashboard`:
the latest `('waste', id)` event exists with status exactly
`"Collected"`, and `utcnow() - (collected_time or utcnow())` strictly
exceeds the threshold (a missing `collected_time` yields elapsed 0). -/
def overdue_flag (L : Ledger) (now : Int) (w : WasteRec) : Bool :=
  match latest_event L "waste" w.waste_id with
  | some e => e.status == "Collected" && decide (now - w.collected_time.getD now > overdue_threshold)
  | none => false

/-- The overdue-collection half of the incident scan in `dashboard`:
one `overdue_collected` incident per flagged package. -/
def detect_overdue_collected (L : Ledger) (ws : List WasteRec) (now : Int) : List Incident :=
  (ws.filter (fun w => overdue_flag L now w)).map
    (fun w => ⟨"overdue_collected", w.waste_id, ">24h without In Transit"⟩)

lemma overdue_flag_iff (L : Ledger) (now : Int) (w : WasteRec) :
    overdue_flag L now w = true ↔
      (latest_status L "waste" w.waste_id = some "Collected" ∧
       now - w.collected_time.getD now > overdue_threshold) := by
  unfold overdue_flag latest_status
  cases latest_event L "waste" w.waste_id with
  | none => simp
  | some e => simp [Bool.and_eq_true]

lemma countP_unique_id {α : Type} (f : α → String) (p : α → Bool) (l : List α) (a : α)
    (hmem : a ∈ l) (hnd : (l.map f).Nodup) :
    l.countP (fun x => f x == f a && p x) = if p a then 1 else 0 := by
  induction l with
  | nil => cases hmem
  | cons b rest ih =>
    have hhead : f b ∉ rest.map f := (List.nodup_cons.mp hnd).1
    have hnd' : (rest.map f).Nodup := (List.nodup_cons.mp hnd).2
    rw [List.countP_cons]
    rcases List.mem_cons.1 hmem with rfl | hmem'
    · have hz : rest.countP (fun x => f x == f a && p x) = 0 := by
        rw [List.countP_eq_zero]
        intro x hx
        have : f x ≠ f a := by
          intro he
          exact hhead (he ▸ List.mem_map_of_mem f hx)
        simp [this]
      rw [hz, Nat.zero_add]
      by_cases hp : p a = true
      · rw [if_pos (by simp [hp]), if_pos hp]
      · rw [if_neg (by simp [hp]), if_neg hp]
    · have hfb : f b ≠ f a := by
        intro he
        exact hhead (he ▸ List.mem_map_of_mem f hmem')
      rw [if_neg (by simp [hfb]), Nat.add_zero]
      exact ih hmem' hnd'

/-- C7: in a single scan, each waste package produces exactly one
`overdue_collected` incident when its latest status is exactly
`'Collected'` and the elapsed time since its `collected_time` strictly
exceeds the 24-hour threshold, and none otherwise; every emitted
incident has type `overdue_collected`. -/
theorem overdue_collected_once (L : Ledger) (ws : List WasteRec) (now : Int)
    (w : WasteRec) (hmem : w ∈ ws) (hnd : (ws.map (fun x => x.waste_id)).Nodup) :
    ((detect_overdue_collected L ws now).countP (fun i => i.ref_id == w.waste_id) =
      if latest_status L "waste" w.waste_id = some "Collected" ∧
          now - w.collected_time.getD now > overdue_threshold
      then 1 else 0) ∧
    (∀ i ∈ detect_overdue_collected L ws now, i.type = "overdue_collected") := by
  constructor
  · unfold detect_overdue_collected
    rw [List.countP_map]
    have hrw : ((fun i => i.ref_id == w.waste_id) ∘
        (fun (x : WasteRec) =>
          (⟨"overdue_collected", x.waste_id, ">24h without In Transit"⟩ : Incident))) =
        fun (x : WasteRec) => x.waste_id == w.waste_id := rfl
    rw [hrw, List.countP_filter]
    have := countP_unique_id (fun x => x.waste_id) (fun x => overdue_flag L now x) ws w hmem hnd
    rw [this]
    by_cases hc : latest_status L "waste" w.waste_id = some "Collected" ∧
        now - w.collected_time.getD now > overdue_threshold
    · rw [if_pos ((overdue_flag_iff L now w).mpr hc), if_pos hc]
    · rw [if_neg (fun h => hc ((overdue_flag_iff L now w).mp h)), if_neg hc]
  · intro i hi
    unfold detect_overdue_collected at hi
    rw [List.mem_map] at hi
    obtain ⟨w', _, rfl⟩ := hi
    rfl

/-- C7 witness: with `now = 100 * 3600` seconds, a package collected at
tick `75 * 3600` (25 hours elapsed) whose latest status is `'Collected'`
yields exactly one incident; a package collected at `77 * 3600`
(23 hours elapsed) yields none. -/
theorem overdue_collected_once_witness :
    ((detect_overdue_collected
        [⟨"waste", "W25", "Collected", 1, 0⟩, ⟨"waste", "W23", "Collected", 1, 0⟩]
        [⟨"W25", some (75 * 3600)⟩, ⟨"W23", some (77 * 3600)⟩] (100 * 3600)).countP
        (fun i => i.ref_id == WasteRec.waste_id ⟨"W25", some (75 * 3600)⟩) =
      if latest_status [⟨"waste", "W25", "Collected", 1, 0⟩, ⟨"waste", "W23", "Collected", 1, 0⟩]
            "waste" (WasteRec.waste_id ⟨"W25", some (75 * 3600)⟩) = some "Collected" ∧
          100 * 3600 - (WasteRec.collected_time ⟨"W25", some (75 * 3600)⟩).getD (100 * 3600) >
            overdue_threshold
      then 1 else 0) ∧
    ((detect_overdue_collected
        [⟨"waste", "W25", "Collected", 1, 0⟩, ⟨"waste", "W23", "Collected", 1, 0⟩]
        [⟨"W25", some (75 * 3600)⟩, ⟨"W23", some (77 * 3600)⟩] (100 * 3600)).countP
        (fun i => i.ref_id == WasteRec.waste_id ⟨"W23", some (77 * 3600)⟩) =
      if latest_status [⟨"waste", "W25", "Collected", 1, 0⟩, ⟨"waste", "W23", "Collected", 1, 0⟩]
            "waste" (WasteRec.waste_id ⟨"W23", some (77 * 3600)⟩) = some "Collected" ∧
          100 * 3600 - (WasteRec.collected_time ⟨"W23", some (77 * 3600)⟩).getD (100 * 3600) >
            overdue_threshold
      then 1 else 0) ∧
    detect_overdue_collected
        [⟨"waste", "W25", "Collected", 1, 0⟩, ⟨"waste", "W23", "Collected", 1, 0⟩]
        [⟨"W25", some (75 * 3600)⟩, ⟨"W23", some (77 * 3600)⟩] (100 * 3600) =
      [⟨"overdue_collected", "W25", ">24h without In Transit"⟩] :=
  ⟨(overdue_collected_once
      [⟨"waste", "W25", "Collected", 1, 0⟩, ⟨"waste", "W23", "Collected", 1, 0⟩]
      [⟨"W25", some (75 * 3600)⟩, ⟨"W23", some (77 * 3600)⟩] (100 * 3600)
      ⟨"W25", some (75 * 3600)⟩ (by decide) (by decide)).1,
   (overdue_collected_once
      [⟨"waste", "W25", "Collected", 1, 0⟩, ⟨"waste", "W23", "Collected", 1, 0⟩]
      [⟨"W25", some (75 * 3600)⟩, ⟨"W23", some (77 * 3600)⟩] (100 * 3600)
      ⟨"W23", some (77 * 3600)⟩ (by decide) (by decide)).1,
   by decide⟩

/-- `EARTH_R` from `utils.py`, in meters. -/
noncomputable def EARTH_R : ℝ := 6371000

/-- `math.radians(d)`: degrees to radians. -/
noncomputable def radians (d : ℝ) : ℝ := d * Real.pi / 180

/-- `haversine_m` from `utils.py`, read over the reals (the Python
floats idealized as exact real arithmetic). -/
noncomputable def haversine_m (lat1 lon1 lat2 lon2 : ℝ) : ℝ :=
  2 * EARTH_R * Real.arcsin (Real.sqrt
    (Real.sin (radians (lat2 - lat1) / 2) ^ 2 +
     Real.cos (radians lat1) * Real.cos (radians lat2) *
       Real.sin (radians (lon2 - lon1) / 2) ^ 2))

/-- C9: `haversine_m` computes `2·R·asin(√a)` with
`a = sin²(Δφ/2) + cos(φ1)·cos(φ2)·sin²(Δλ/2)` and `R = 6371000` m
(angles converted to radians); it vanishes on coincident points, and
one degree of longitude at the equator measures within 1% of
111320 meters. -/
theorem haversine_m_spec :
    (∀ lat1 lon1 lat2 lon2 : ℝ,
      haversine_m lat1 lon1 lat2 lon2 =
        2 * 6371000 * Real.arcsin (Real.sqrt
          (Real.sin ((lat2 - lat1) * Real.pi / 180 / 2) ^ 2 +
           Real.cos (lat1 * Real.pi / 180) * Real.cos (lat2 * Real.pi / 180) *
             Real.sin ((lon2 - lon1) * Real.pi / 180 / 2) ^ 2))) ∧
    (∀ lat lon : ℝ, haversine_m lat lon lat lon = 0) ∧
    |haversine_m 0 0 0 1 - 111320| ≤ 111320 / 100 := by
  refine ⟨fun lat1 lon1 lat2 lon2 => rfl, fun lat lon => ?_, ?_⟩
  · simp [haversine_m, radians, sub_self]
  · have hx0 : (0 : ℝ) ≤ Real.pi / 360 := by positivity
    have hxpi : Real.pi / 360 ≤ Real.pi := div_le_self Real.pi_pos.le (by norm_num)
    have hsin : Real.sqrt (Real.sin (Real.pi / 360) ^ 2) = Real.sin (Real.pi / 360) := by
      rw [Real.sqrt_sq_eq_abs,
        abs_of_nonneg (Real.sin_nonneg_of_nonneg_of_le_pi hx0 hxpi)]
    have harc : Real.arcsin (Real.sin (Real.pi / 360)) = Real.pi / 360 := by
      apply Real.arcsin_sin
      · linarith [Real.pi_pos]
      · linarith [Real.pi_pos]
    have hval : haversine_m 0 0 0 1 = 2 * 6371000 * (Real.pi / 360) := by
      unfold haversine_m radians EARTH_R
      rw [show ((0 : ℝ) - 0) * Real.pi / 180 / 2 = 0 by ring,
        show ((1 : ℝ) - 0) * Real.pi / 180 / 2 = Real.pi / 360 by ring,
        show (0 : ℝ) * Real.pi / 180 = 0 by ring]
      rw [Real.sin_zero, Real.cos_zero]
      rw [show (0 : ℝ) ^ 2 + 1 * 1 * Real.sin (Real.pi / 360) ^ 2 =
        Real.sin (Real.pi / 360) ^ 2 by ring]
      rw [hsin, harc]
    rw [hval, abs_le]
    constructor
    · linarith [Real.pi_gt_d6]
    · linarith [Real.pi_lt_d6]

/-- C10: for an entity (waste or transport) with no prior events,
`advance` with `allow_skip = true` and any non-empty explicit target
succeeds and commits that target as the entity's first event without
any validation — the target may be any flow element (including the
terminal one) or a string outside the flow entirely.  For a transport
the own event is appended first, then the usual cascade runs when the
committed target lies in the cascade trigger set. -/
theorem first_event_unvalidated
    (L : Ledger) (wid tid t : String) (u : Nat) (now : Int) (wastes : List String)
    (hwnone : latest_status L "waste" wid = none)
    (htnone : latest_status L "transport" tid = none) (ht : t ≠ "") :
    advance_waste L wid u true (some t) now =
      (Except.ok t, L ++ [⟨"waste", wid, t, u, now⟩]) ∧
    advance_transport L tid u true (some t) wastes now =
      (Except.ok t,
        if t ∈ CASCADE_SET then
          wastes.foldl (cascadeStep u now) (L ++ [⟨"transport", tid, t, u, now⟩])
        else L ++ [⟨"transport", tid, t, u, now⟩]) := by
  constructor
  · unfold advance_waste
    rw [hwnone]
    simp [adv_core, truthy, ht]
  · unfold advance_transport
    rw [htnone]
    simp [adv_core, truthy, ht]

/-- C10 witness: with an empty ledger, the first committed status of a
waste and of a transport may be the terminal `"Completed"` or even the
out-of-flow string `"Garbage"`; for the transport, `"Completed"` also
triggers the cascade over the associated waste list. -/
theorem first_event_unvalidated_witness :
    (advance_waste [] "W9" 3 true (some "Garbage") 7 =
        (Except.ok "Garbage", [] ++ [⟨"waste", "W9", "Garbage", 3, 7⟩]) ∧
      advance_transport [] "T9" 3 true (some "Garbage") [] 7 =
        (Except.ok "Garbage",
          if "Garbage" ∈ CASCADE_SET then
            ([] : List String).foldl (cascadeStep 3 7)
              ([] ++ [⟨"transport", "T9", "Garbage", 3, 7⟩])
          else [] ++ [⟨"transport", "T9", "Garbage", 3, 7⟩])) ∧
    (advance_waste [] "W8" 3 true (some "Completed") 7 =
        (Except.ok "Completed", [] ++ [⟨"waste", "W8", "Completed", 3, 7⟩]) ∧
      advance_transport [] "T8" 3 true (some "Completed") ["WX"] 7 =
        (Except.ok "Completed",
          if "Completed" ∈ CASCADE_SET then
            (["WX"] : List String).foldl (cascadeStep 3 7)
              ([] ++ [⟨"transport", "T8", "Completed", 3, 7⟩])
          else [] ++ [⟨"transport", "T8", "Completed", 3, 7⟩])) :=
  ⟨first_event_unvalidated [] "W9" "T9" "Garbage" 3 7 [] (by decide) (by decide) (by decide),
   first_event_unvalidated [] "W8" "T8" "Completed" 3 7 ["WX"] (by decide) (by decide)
     (by decide)⟩
